import Mathlib

/-!
Shallow embedding of the Leave Request Lifecycle Engine of the
Ems_Vercel_Backend repository (src/models/Leave.js,
src/controllers/attendanceController.js leave handlers, and the
express-validator chains in src/unnamed/part_007), together with proofs
about the embedded definitions.

Dates are modelled as integers (milliseconds since the Unix epoch), the
representation JavaScript `Date` arithmetic works on.  Object ids are
modelled as naturals.  The Mongo record store is a list of records; the
Mongo queries used by the code are translated into list filters.
-/

deriving instance DecidableEq for Except

namespace Ems

/-- `'annual' | 'sick' | 'maternity' | 'paternity' | 'emergency' | 'other'`
(enum of `leaveType` in src/models/Leave.js). -/
inductive LeaveType
  | annual | sick | maternity | paternity | emergency | other
  deriving Repr, DecidableEq

/-- `'pending' | 'approved' | 'rejected' | 'cancelled'`
(enum of `status` in src/models/Leave.js). -/
inductive LeaveStatus
  | pending | approved | rejected | cancelled
  deriving Repr, DecidableEq

/-- `'no_coverage' | 'colleague_coverage' | 'postponed'`
(enum of `workArrangement` in src/models/Leave.js). -/
inductive WorkArrangement
  | no_coverage | colleague_coverage | postponed
  deriving Repr, DecidableEq

/-- The `emergencyContact` subdocument of the leave schema. -/
structure EmergencyContact where
  name : Option String
  phone : Option String
  relationship : Option String
  deriving Repr, DecidableEq

/-- An entry of the `documents` array of the leave schema. -/
structure LeaveDocEntry where
  filename : Option String
  originalName : Option String
  path : Option String
  size : Option Nat
  uploadedAt : Int
  deriving Repr, DecidableEq

/-- A stored leave request document (src/models/Leave.js `leaveSchema`). -/
structure LeaveRequest where
  id : Nat
  employee : Nat
  leaveType : LeaveType
  startDate : Int
  endDate : Int
  totalDays : Nat
  reason : String
  status : LeaveStatus
  appliedDate : Int
  approvedDate : Option Int
  rejectedDate : Option Int
  approvedBy : Option Nat
  rejectedBy : Option Nat
  rejectionReason : Option String
  documents : List LeaveDocEntry
  emergencyContact : Option EmergencyContact
  workArrangement : WorkArrangement
  coveringEmployee : Option Nat
  notes : Option String
  deriving Repr, DecidableEq

/-- The authenticated actor (`req.user`): Mongo id and role string. -/
structure Actor where
  id : Nat
  role : String
  deriving Repr, DecidableEq

/-- The record store backing the Mongo collection. -/
abbrev Store := List LeaveRequest

/-- `Leave.findById`: first stored record with the given id. -/
def findById (store : Store) (id : Nat) : Option LeaveRequest :=
  store.find? fun l => l.id == id

/-- `1000 * 60 * 60 * 24`, the millisecond-per-day constant of the code. -/
def msPerDay : Nat := 1000 * 60 * 60 * 24

/-- The day count computed both by the `pre('save')` hook of
src/models/Leave.js (lines 108-115) and by `createLeave`
(attendanceController.js lines 376-380):
`Math.ceil(Math.abs(end - start) / 86400000) + 1`.
`Math.ceil` of the non-negative quotient is the rounding-up Nat division. -/
def computeTotalDays (startDate endDate : Int) : Nat :=
  ((endDate - startDate).natAbs + msPerDay - 1) / msPerDay + 1

/-- The Mongo query condition of `leaveSchema.methods.checkOverlap`
(src/models/Leave.js lines 173-201), evaluated at a stored record `l`
against the candidate record `a` (`this`): same employee, different `_id`,
`status ∈ {pending, approved}`, and the three-way `$or` on the date
intervals. -/
def overlapQueryCond (a l : LeaveRequest) : Prop :=
  l.employee = a.employee ∧ l.id ≠ a.id ∧
    (l.status = .pending ∨ l.status = .approved) ∧
    ((l.startDate ≤ a.startDate ∧ a.startDate ≤ l.endDate) ∨
     (l.startDate ≤ a.endDate ∧ a.endDate ≤ l.endDate) ∨
     (a.startDate ≤ l.startDate ∧ l.endDate ≤ a.endDate))

instance (a l : LeaveRequest) : Decidable (overlapQueryCond a l) := by
  unfold overlapQueryCond; infer_instance

/-- `leave.checkOverlap()`: true iff the store holds a record satisfying
the overlap query condition for the candidate. -/
def checkOverlap (store : Store) (a : LeaveRequest) : Bool :=
  store.any fun l => decide (overlapQueryCond a l)

/-- The textbook inclusive-interval overlap the spec defines:
`a1 <= b2 AND b1 <= a2`, plus the same employee / different id / active
status filters. -/
def specOverlapCond (a l : LeaveRequest) : Prop :=
  l.employee = a.employee ∧ l.id ≠ a.id ∧
    (l.status = .pending ∨ l.status = .approved) ∧
    a.startDate ≤ l.endDate ∧ l.startDate ≤ a.endDate

lemma overlapQueryCond_iff_specOverlapCond (a l : LeaveRequest)
    (ha : a.startDate ≤ a.endDate) (hl : l.startDate ≤ l.endDate) :
    overlapQueryCond a l ↔ specOverlapCond a l := by
  unfold overlapQueryCond specOverlapCond
  constructor
  · rintro ⟨he, hid, hst, hcase⟩
    refine ⟨he, hid, hst, ?_⟩
    rcases hcase with ⟨h1, h2⟩ | ⟨h1, h2⟩ | ⟨h1, h2⟩ <;> omega
  · rintro ⟨he, hid, hst, h1, h2⟩
    refine ⟨he, hid, hst, ?_⟩
    by_cases hb : l.startDate ≤ a.startDate
    · exact Or.inl ⟨hb, by omega⟩
    · by_cases hc : l.endDate ≤ a.endDate
      · exact Or.inr (Or.inr ⟨by omega, hc⟩)
      · exact Or.inr (Or.inl ⟨by omega, by omega⟩)

/-- The distinct caller-visible error kinds of the leave handlers
(HTTP 404, 403, the two different 400 bodies, express-validator 400, and
the generic 500 the controller's `catch` returns when the storage layer
throws — e.g. a Mongoose update-validation failure). -/
inductive LeaveError
  | notFound | forbidden | stateConflict | overlapConflict | validationError
  | serverError
  deriving Repr, DecidableEq

/-- Request body of `POST /api/leaves` as destructured by `createLeave`. -/
structure CreatePayload where
  leaveType : LeaveType
  startDate : Int
  endDate : Int
  reason : String
  emergencyContact : Option EmergencyContact
  workArrangement : Option WorkArrangement
  coveringEmployee : Option Nat
  deriving Repr, DecidableEq

/-- `createLeave` (attendanceController.js lines 364-416): derive
`totalDays`, build the candidate document, abort with the overlap error if
`checkOverlap` fires, otherwise `save()` (which re-runs the `pre('save')`
day computation) and insert.  `newId` is the id Mongo assigns, `now` the
`appliedDate` default. -/
def createLeave (store : Store) (actor : Actor) (p : CreatePayload)
    (newId : Nat) (now : Int) : Except LeaveError (Store × LeaveRequest) :=
  let totalDays := computeTotalDays p.startDate p.endDate
  let leave : LeaveRequest :=
    { id := newId, employee := actor.id, leaveType := p.leaveType,
      startDate := p.startDate, endDate := p.endDate, totalDays := totalDays,
      reason := p.reason, status := .pending, appliedDate := now,
      approvedDate := none, rejectedDate := none, approvedBy := none,
      rejectedBy := none, rejectionReason := none, documents := [],
      emergencyContact := p.emergencyContact,
      workArrangement := p.workArrangement.getD .no_coverage,
      coveringEmployee := p.coveringEmployee, notes := none }
  if checkOverlap store leave then .error .overlapConflict
  else
    let saved := { leave with
                    totalDays := computeTotalDays leave.startDate leave.endDate }
    .ok (store ++ [saved], saved)

/-- The `validateLeaveStatusUpdate` chain of src/unnamed/part_007
(lines 126-136): `status` must be `approved` or `rejected`;
`rejectionReason` is OPTIONAL, only its length is bounded by 500. -/
def validateLeaveStatusUpdate (status : LeaveStatus)
    (rejectionReason : Option String) : Bool :=
  (status == .approved || status == .rejected) &&
  (match rejectionReason with
   | none => true
   | some r => r.length ≤ 500)

/-- The record produced by the body of `updateLeaveStatus`
(attendanceController.js lines 433-444): assign the new status, set the
decision metadata for `approved`/`rejected`, then `save()` (which re-runs
the `pre('save')` day computation). -/
def decidedRecord (actor : Actor) (status : LeaveStatus)
    (rejectionReason : Option String) (now : Int) (leave : LeaveRequest) :
    LeaveRequest :=
  let leave1 := { leave with status := status }
  let leave2 :=
    if status = .approved then
      { leave1 with approvedDate := some now, approvedBy := some actor.id }
    else if status = .rejected then
      { leave1 with
          rejectedDate := some now
          rejectedBy := some actor.id
          rejectionReason := rejectionReason }
    else leave1
  { leave2 with
      totalDays := computeTotalDays leave2.startDate leave2.endDate }

/-- `updateLeaveStatus` (attendanceController.js lines 421-461): look the
record up, apply the decision, and save.  There is no check of the
record's current status. -/
def updateLeaveStatus (store : Store) (actor : Actor) (id : Nat)
    (status : LeaveStatus) (rejectionReason : Option String) (now : Int) :
    Except LeaveError (Store × LeaveRequest) :=
  match findById store id with
  | none => .error .notFound
  | some leave =>
    let saved := decidedRecord actor status rejectionReason now leave
    .ok (store.map (fun l => if l.id == id then saved else l), saved)

/-- The full `PUT /api/leaves/:id/status` pipeline of src/unnamed/part_003:
`authorize('admin')`, then `validateLeaveStatusUpdate`, then the
controller. -/
def decideLeaveStatus (store : Store) (actor : Actor) (id : Nat)
    (status : LeaveStatus) (rejectionReason : Option String) (now : Int) :
    Except LeaveError (Store × LeaveRequest) :=
  if actor.role ≠ "admin" then .error .forbidden
  else if ¬ validateLeaveStatusUpdate status rejectionReason then
    .error .validationError
  else updateLeaveStatus store actor id status rejectionReason now

/-- Request body of `PUT /api/leaves/:id` as whitelisted into
`fieldsToUpdate` by `updateLeave`; `none` is a field absent from the body
(removed as `undefined`). -/
structure EditPayload where
  leaveType : Option LeaveType
  startDate : Option Int
  endDate : Option Int
  reason : Option String
  emergencyContact : Option (Option EmergencyContact)
  workArrangement : Option WorkArrangement
  coveringEmployee : Option (Option Nat)
  deriving Repr, DecidableEq

/-- Spreading `fieldsToUpdate` over a document: present fields overwrite,
absent fields keep the document's values (both the `testLeave`
construction and the `findByIdAndUpdate` write of `updateLeave`). -/
def applyEdit (l : LeaveRequest) (p : EditPayload) : LeaveRequest :=
  { l with
    leaveType := p.leaveType.getD l.leaveType
    startDate := p.startDate.getD l.startDate
    endDate := p.endDate.getD l.endDate
    reason := p.reason.getD l.reason
    emergencyContact := p.emergencyContact.getD l.emergencyContact
    workArrangement := p.workArrangement.getD l.workArrangement
    coveringEmployee := p.coveringEmployee.getD l.coveringEmployee }

/-- The `runValidators: true` update validation of the
`findByIdAndUpdate` call (attendanceController.js lines 523-527).
Mongoose update validators run on exactly the paths present in the
update.  The schema's `endDate` validator (`value >= this.startDate`,
src/models/Leave.js lines 21-27) reads the other field through `this`,
which in update-validator context is not the document, so the comparison
fails for EVERY update that contains `endDate`.  Of the remaining
whitelisted paths, only `reason` carries a validator that a well-typed
payload can violate: maxlength 500.  A validation failure makes
`findByIdAndUpdate` throw, which the controller's `catch` turns into the
generic 500. -/
def updateValidationPasses (p : EditPayload) : Bool :=
  p.endDate.isNone &&
  (match p.reason with
   | none => true
   | some r => r.length ≤ 500)

/-- `updateLeave` (attendanceController.js lines 466-542): 404 when
absent, 400 (state conflict) unless `pending`, 403 unless admin or owner;
when a date field is supplied, re-run `checkOverlap` on the merged
`testLeave` (which keeps the record's own `_id`); then commit with
`findByIdAndUpdate` under `runValidators: true` — an update validation
failure (any `endDate`-containing payload, see `updateValidationPasses`)
throws and surfaces as the generic 500 with the record unchanged.  The
commit path does NOT run the `pre('save')` hook, so `totalDays` is
written back unchanged. -/
def updateLeave (store : Store) (actor : Actor) (id : Nat)
    (p : EditPayload) : Except LeaveError (Store × LeaveRequest) :=
  match findById store id with
  | none => .error .notFound
  | some leave =>
    if leave.status ≠ .pending then .error .stateConflict
    else if actor.role ≠ "admin" ∧ leave.employee ≠ actor.id then
      .error .forbidden
    else if (p.startDate.isSome || p.endDate.isSome)
            && checkOverlap store (applyEdit leave p) then
      .error .overlapConflict
    else if ¬ updateValidationPasses p then .error .serverError
    else
      .ok (store.map (fun l => if l.id == id then applyEdit l p else l),
           applyEdit leave p)

/-- `deleteLeave` (attendanceController.js lines 547-585): 404 when
absent, 400 (state conflict) unless `pending`, 403 unless admin or owner,
then `deleteOne()`. -/
def deleteLeave (store : Store) (actor : Actor) (id : Nat) :
    Except LeaveError Store :=
  match findById store id with
  | none => .error .notFound
  | some leave =>
    if leave.status ≠ .pending then .error .stateConflict
    else if actor.role ≠ "admin" ∧ leave.employee ≠ actor.id then
      .error .forbidden
    else .ok (store.filter fun l => l.id != id)

/-- The summary document produced by `leaveSchema.statics.getLeaveStats`
(`$group` stage), or the all-zero fallback object of lines 161-169. -/
structure LeaveSummary where
  totalLeaves : Nat
  approvedLeaves : Nat
  pendingLeaves : Nat
  rejectedLeaves : Nat
  totalDays : Nat
  approvedDays : Nat
  pendingDays : Nat
  deriving Repr, DecidableEq

/-- The `result[0] || {...}` fallback object. -/
def zeroSummary : LeaveSummary :=
  { totalLeaves := 0, approvedLeaves := 0, pendingLeaves := 0,
    rejectedLeaves := 0, totalDays := 0, approvedDays := 0, pendingDays := 0 }

/-- The `$match` stage of `getLeaveStats` (src/models/Leave.js
lines 119-128): employee filter when `employeeId` is given; the date
filter `startDate >= given start AND endDate <= given end` only when BOTH
dates are given. -/
def statsMatch (employeeId : Option Nat) (startDate endDate : Option Int)
    (l : LeaveRequest) : Bool :=
  (match employeeId with
   | none => true
   | some eid => l.employee == eid) &&
  (match startDate, endDate with
   | some s, some e => decide (s ≤ l.startDate) && decide (l.endDate ≤ e)
   | _, _ => true)

/-- `leaveSchema.statics.getLeaveStats` (src/models/Leave.js
lines 118-170): `$match` then `$group` with conditional sums; an empty
match yields the all-zero fallback (an empty fold produces exactly the
fallback object's zeros). -/
def getLeaveStats (store : Store) (employeeId : Option Nat)
    (startDate endDate : Option Int) : LeaveSummary :=
  let matched := store.filter (statsMatch employeeId startDate endDate)
  { totalLeaves := matched.length
    approvedLeaves := (matched.filter fun l => l.status == .approved).length
    pendingLeaves := (matched.filter fun l => l.status == .pending).length
    rejectedLeaves := (matched.filter fun l => l.status == .rejected).length
    totalDays := (matched.map fun l => l.totalDays).sum
    approvedDays :=
      ((matched.filter fun l => l.status == .approved).map
        fun l => l.totalDays).sum
    pendingDays :=
      ((matched.filter fun l => l.status == .pending).map
        fun l => l.totalDays).sum }

/-! ### Sample records used by witnesses and counterexamples -/

/-- A pending leave over the two inclusive days starting at the epoch. -/
def sampleLeave : LeaveRequest :=
  { id := 1, employee := 10, leaveType := .annual, startDate := 0,
    endDate := 86400000, totalDays := 2, reason := "family trip to the coast",
    status := .pending, appliedDate := 0, approvedDate := none,
    rejectedDate := none, approvedBy := none, rejectedBy := none,
    rejectionReason := none, documents := [], emergencyContact := none,
    workArrangement := .no_coverage, coveringEmployee := none, notes := none }

/-- The same record after an approval decision. -/
def approvedLeave : LeaveRequest := { sampleLeave with status := .approved }

/-- The requester who owns `sampleLeave`. -/
def ownerActor : Actor := { id := 10, role := "employee" }

/-- An administrative actor. -/
def adminActor : Actor := { id := 77, role := "admin" }

/-- An authenticated employee who does not own `sampleLeave`. -/
def otherActor : Actor := { id := 11, role := "employee" }

/-! ### Calendar arithmetic -/

lemma natCast_ceilDivNat (n D : Nat) (hD : 0 < D) :
    (((n + D - 1) / D : Nat) : ℤ) = ⌈(n : ℚ) / (D : ℚ)⌉ := by
  have hq : (0 : ℚ) < (D : ℚ) := by exact_mod_cast hD
  set q : Nat := (n + D - 1) / D with hqdef
  have hmod := Nat.div_add_mod (n + D - 1) D
  have hr : (n + D - 1) % D < D := Nat.mod_lt _ hD
  rw [← hqdef] at hmod
  have hnq : n ≤ D * q := by omega
  have hlt : D * q + 1 ≤ n + D := by omega
  refine le_antisymm ?_ ?_
  · have hlow : ((q : ℚ) - 1) * (D : ℚ) < (n : ℚ) := by
      have h1 : ((D * q + 1 : Nat) : ℚ) ≤ ((n + D : Nat) : ℚ) := by
        exact_mod_cast hlt
      push_cast at h1
      nlinarith
    have hlow' : ((q : ℚ) - 1) < (n : ℚ) / (D : ℚ) :=
      (lt_div_iff₀ hq).mpr hlow
    have hceil : ((q : ℤ) : ℚ) - 1 < ((⌈(n : ℚ) / (D : ℚ)⌉ : ℤ) : ℚ) := by
      push_cast
      exact lt_of_lt_of_le hlow' (Int.le_ceil _)
    have : (q : ℤ) - 1 < ⌈(n : ℚ) / (D : ℚ)⌉ := by exact_mod_cast hceil
    omega
  · rw [Int.ceil_le]
    have hcast : (n : ℚ) ≤ (q : ℚ) * (D : ℚ) := by
      have h2 : ((n : Nat) : ℚ) ≤ ((D * q : Nat) : ℚ) := by exact_mod_cast hnq
      push_cast at h2
      linarith
    rw [div_le_iff₀ hq]
    push_cast
    exact hcast

/-- C6: `computeTotalDays` (the day count computed at creation and by the
`pre('save')` hook) equals `ceil((end - start) in whole days) + 1` whenever
`end >= start`; `computeTotalDays d d = 1` for every date `d`; the span
from 2024-01-01 to 2024-01-05 (epoch milliseconds) is 5 days; and the
result is always at least 1. -/
theorem computeTotalDays_correct :
    (∀ s e : Int, s ≤ e →
      (computeTotalDays s e : ℤ) =
        ⌈((e : ℚ) - (s : ℚ)) / (msPerDay : ℚ)⌉ + 1)
    ∧ (∀ d : Int, computeTotalDays d d = 1)
    ∧ computeTotalDays 1704067200000 1704412800000 = 5
    ∧ (∀ s e : Int, 1 ≤ computeTotalDays s e) := by
  refine ⟨?_, ?_, by decide, ?_⟩
  · intro s e hse
    unfold computeTotalDays
    have hD : 0 < msPerDay := by decide
    have h1 : (((e - s).natAbs : ℤ)) = e - s :=
      Int.natAbs_of_nonneg (by omega)
    have h2 : (((e - s).natAbs : Nat) : ℚ) = (e : ℚ) - (s : ℚ) := by
      have hnn : (0 : ℚ) ≤ (e : ℚ) - (s : ℚ) := by
        have h0 : (0 : ℤ) ≤ e - s := by omega
        exact_mod_cast h0
      rw [Int.cast_natAbs]
      push_cast
      exact abs_of_nonneg hnn
    rw [Nat.cast_add, Nat.cast_one, natCast_ceilDivNat _ _ hD, h2]
  · intro d
    unfold computeTotalDays
    rw [sub_self]
    decide
  · intro s e
    exact Nat.le_add_left 1 _

/-- Witness for C6: the first conjunct applied at the concrete pair
`(0, 86400000)` (one whole day apart). -/
theorem computeTotalDays_correct_witness :
    ((0 : Int) ≤ 86400000) ∧
      (computeTotalDays 0 86400000 : ℤ) =
        ⌈((86400000 : ℚ) - ((0 : Int) : ℚ)) / (msPerDay : ℚ)⌉ + 1 :=
  ⟨by decide, computeTotalDays_correct.1 0 86400000 (by decide)⟩

lemma checkOverlap_eq_true_iff (store : Store) (a : LeaveRequest)
    (ha : a.startDate ≤ a.endDate)
    (hs : ∀ l ∈ store, l.startDate ≤ l.endDate) :
    checkOverlap store a = true ↔ ∃ l ∈ store, specOverlapCond a l := by
  unfold checkOverlap
  rw [List.any_eq_true]
  constructor
  · rintro ⟨l, hl, hcond⟩
    exact ⟨l, hl, (overlapQueryCond_iff_specOverlapCond a l ha (hs l hl)).mp
      (of_decide_eq_true hcond)⟩
  · rintro ⟨l, hl, hcond⟩
    exact ⟨l, hl, decide_eq_true
      ((overlapQueryCond_iff_specOverlapCond a l ha (hs l hl)).mpr hcond)⟩

/-- C4: `checkOverlap` returns true iff the store holds a record for the
same employee, with a different id, in status `pending` or `approved`,
whose inclusive interval satisfies the symmetric condition
`a.start <= b.end AND b.start <= a.end` — given that the candidate's and
the stored records' intervals are well-formed (`start <= end`, the schema
validator of `endDate`).  Touching endpoints satisfy the right-hand side,
and `rejected`/`cancelled` records never do. -/
theorem checkOverlap_iff_specOverlap (store : Store) (a : LeaveRequest)
    (ha : a.startDate ≤ a.endDate)
    (hs : ∀ l ∈ store, l.startDate ≤ l.endDate) :
    checkOverlap store a = true ↔ ∃ l ∈ store, specOverlapCond a l :=
  checkOverlap_eq_true_iff store a ha hs

/-- Witness for C4: a candidate `[86400000, 2*86400000]` touching the
stored pending interval `[0, 86400000]` of the same employee at a single
endpoint; both sides of the equivalence hold. -/
theorem checkOverlap_iff_specOverlap_witness :
    checkOverlap [sampleLeave]
        { sampleLeave with id := 2, startDate := 86400000,
                           endDate := 172800000 } = true
      ↔ ∃ l ∈ [sampleLeave],
          specOverlapCond
            { sampleLeave with id := 2, startDate := 86400000,
                               endDate := 172800000 } l :=
  checkOverlap_iff_specOverlap [sampleLeave]
    { sampleLeave with id := 2, startDate := 86400000, endDate := 172800000 }
    (by decide) (by decide)

/-- C7: `getLeaveStats` counts exactly the stored requests matched by the
`$match` stage, and a request matches iff it has the given requester
(when one is given) and — only when BOTH window dates are given — its
`startDate` is at least the window's start and its `endDate` at most the
window's end (full containment, not mere overlap). -/
theorem getLeaveStats_filter_semantics :
    ∀ (store : Store) (eid : Option Nat) (sd ed : Option Int),
      (getLeaveStats store eid sd ed).totalLeaves
          = (store.filter (statsMatch eid sd ed)).length
      ∧ ∀ l : LeaveRequest,
          statsMatch eid sd ed l = true ↔
            ((∀ i, eid = some i → l.employee = i) ∧
             (∀ a b, sd = some a → ed = some b →
                a ≤ l.startDate ∧ l.endDate ≤ b)) := by
  intro store eid sd ed
  refine ⟨rfl, ?_⟩
  intro l
  unfold statsMatch
  cases eid <;> cases sd <;> cases ed <;>
    simp [Bool.and_eq_true, decide_eq_true_eq, beq_iff_eq, and_assoc]

/-- Witness for C7: the characterization applied at a concrete one-record
store with a requester filter and a full containment window. -/
theorem getLeaveStats_filter_semantics_witness :
    (getLeaveStats [sampleLeave] (some 10) (some 0)
        (some 86400000)).totalLeaves
      = ([sampleLeave].filter (statsMatch (some 10) (some 0)
          (some 86400000))).length
    ∧ ∀ l : LeaveRequest,
        statsMatch (some 10) (some 0) (some 86400000) l = true ↔
          ((∀ i, (some 10 : Option Nat) = some i → l.employee = i) ∧
           (∀ a b, (some 0 : Option Int) = some a →
              (some 86400000 : Option Int) = some b →
              a ≤ l.startDate ∧ l.endDate ≤ b)) :=
  getLeaveStats_filter_semantics [sampleLeave] (some 10) (some 0)
    (some 86400000)

/-- C9: when no stored request matches the filters — in particular on an
empty store — `getLeaveStats` returns the all-zero summary object, never
an absent result (the embedding is total: it always returns a
`LeaveSummary`). -/
theorem getLeaveStats_no_match_zero (store : Store) (eid : Option Nat)
    (sd ed : Option Int)
    (h : ∀ l ∈ store, statsMatch eid sd ed l = false) :
    getLeaveStats store eid sd ed = zeroSummary := by
  have hfil : store.filter (statsMatch eid sd ed) = [] := by
    rw [List.filter_eq_nil_iff]
    intro l hl
    simp [h l hl]
  unfold getLeaveStats
  rw [hfil]
  rfl

/-- Witness for C9: a store whose only record belongs to employee 10
matched against the requester filter 3 yields the zero summary. -/
theorem getLeaveStats_no_match_zero_witness :
    getLeaveStats [sampleLeave] (some 3) none none = zeroSummary :=
  getLeaveStats_no_match_zero [sampleLeave] (some 3) none none (by decide)

lemma decidedRecord_status (a : Actor) (st : LeaveStatus)
    (rr : Option String) (now : Int) (leave : LeaveRequest) :
    (decidedRecord a st rr now leave).status = st := by
  unfold decidedRecord
  cases st <;> simp

lemma decidedRecord_rejected_reason (a : Actor) (rr : Option String)
    (now : Int) (leave : LeaveRequest) :
    (decidedRecord a .rejected rr now leave).rejectionReason = rr := by
  unfold decidedRecord
  simp

lemma decideLeaveStatus_found (store : Store) (a : Actor) (id : Nat)
    (st : LeaveStatus) (rr : Option String) (now : Int)
    (leave : LeaveRequest)
    (hfound : findById store id = some leave)
    (hadmin : a.role = "admin")
    (hvalid : validateLeaveStatusUpdate st rr = true) :
    decideLeaveStatus store a id st rr now
      = .ok (store.map (fun l =>
               if l.id == id then decidedRecord a st rr now leave else l),
             decidedRecord a st rr now leave) := by
  unfold decideLeaveStatus updateLeaveStatus
  rw [hadmin, hvalid, hfound]
  simp

/-- The record `decideLeaveStatus` writes in the C1/C3 counterexamples:
the sample request rejected by the admin at time 99 without a reason. -/
def rejectedNoReasonLeave : LeaveRequest :=
  { sampleLeave with
      status := .rejected
      rejectedDate := some 99
      rejectedBy := some 77
      rejectionReason := none }

/-- As `rejectedNoReasonLeave` but with the reason "late". -/
def rejectedLateLeave : LeaveRequest :=
  { sampleLeave with
      status := .rejected
      rejectedDate := some 99
      rejectedBy := some 77
      rejectionReason := some "late" }

/-- C1 counterexample: `updateLeaveStatus` never inspects the record's
current status.  An admin decision `rejected` on an ALREADY-APPROVED
request does not fail with a state conflict: it succeeds and rewrites the
record (status and rejection metadata). -/
theorem decide_on_approved_succeeds_cex :
    approvedLeave.status ≠ .pending ∧
    decideLeaveStatus [approvedLeave] adminActor 1 .rejected (some "late") 99
      = .ok ([rejectedLateLeave], rejectedLateLeave) ∧
    decideLeaveStatus [approvedLeave] adminActor 1 .rejected (some "late") 99
      ≠ .error .stateConflict := by
  refine ⟨by decide, by decide, by decide⟩

/-- C1 (amended): a status decision by an administrative actor on ANY
found request succeeds whenever the payload passes
`validateLeaveStatusUpdate` — the controller performs no pending-state
check, so non-`pending` requests accept decisions too and the stored
record is overwritten with the decided status. -/
theorem decideLeaveStatus_ignores_state (store : Store) (a : Actor)
    (id : Nat) (st : LeaveStatus) (rr : Option String) (now : Int)
    (leave : LeaveRequest)
    (hfound : findById store id = some leave)
    (hadmin : a.role = "admin")
    (hvalid : validateLeaveStatusUpdate st rr = true) :
    ∃ store' saved, decideLeaveStatus store a id st rr now
        = .ok (store', saved) ∧ saved.status = st :=
  ⟨_, _, decideLeaveStatus_found store a id st rr now leave hfound hadmin
      hvalid,
    decidedRecord_status a st rr now leave⟩

/-- Witness for C1's amended theorem: re-approving the already-approved
sample record succeeds. -/
theorem decideLeaveStatus_ignores_state_witness :
    ∃ store' saved,
      decideLeaveStatus [approvedLeave] adminActor 1 .approved none 50
        = .ok (store', saved) ∧ saved.status = .approved :=
  decideLeaveStatus_ignores_state [approvedLeave] adminActor 1 .approved
    none 50 approvedLeave (by decide) (by decide) (by decide)

/-- C3 counterexample: the `validateLeaveStatusUpdate` chain marks
`rejectionReason` as `.optional()`, so an admin rejection of a PENDING
request without a reason does not raise a validation error — it
succeeds, leaving `rejectionReason` unset. -/
theorem reject_without_reason_succeeds_cex :
    sampleLeave.status = .pending ∧
    decideLeaveStatus [sampleLeave] adminActor 1 .rejected none 99
      = .ok ([rejectedNoReasonLeave], rejectedNoReasonLeave) ∧
    decideLeaveStatus [sampleLeave] adminActor 1 .rejected none 99
      ≠ .error .validationError := by
  refine ⟨by decide, by decide, by decide⟩

/-- C3 (amended): a rejection without `rejectionReason` passes validation
(the field is optional) and succeeds on any found request when issued by
an administrative actor; the saved record carries status `rejected` and
no rejection reason. -/
theorem reject_without_reason_succeeds (store : Store) (a : Actor)
    (id : Nat) (now : Int) (leave : LeaveRequest)
    (hfound : findById store id = some leave)
    (hadmin : a.role = "admin") :
    ∃ store' saved, decideLeaveStatus store a id .rejected none now
        = .ok (store', saved) ∧ saved.status = .rejected ∧
        saved.rejectionReason = none :=
  ⟨_, _, decideLeaveStatus_found store a id .rejected none now leave hfound
      hadmin rfl,
    decidedRecord_status a .rejected none now leave,
    decidedRecord_rejected_reason a none now leave⟩

/-- Witness for C3's amended theorem at the concrete pending record. -/
theorem reject_without_reason_succeeds_witness :
    ∃ store' saved,
      decideLeaveStatus [sampleLeave] adminActor 1 .rejected none 42
        = .ok (store', saved) ∧ saved.status = .rejected ∧
        saved.rejectionReason = none :=
  reject_without_reason_succeeds [sampleLeave] adminActor 1 42 sampleLeave
    (by decide) (by decide)

/-- Edit payload that only moves the end date to four days after the
epoch (2024-agnostic small timestamps); every other field is absent. -/
def extendEndPayload : EditPayload :=
  { leaveType := none, startDate := none, endDate := some 345600000,
    reason := none, emergencyContact := none, workArrangement := none,
    coveringEmployee := none }

/-- A pending leave of the same owner over the two inclusive days 3-4
(epoch milliseconds); its `totalDays` agrees with the derived span. -/
def laterLeave : LeaveRequest :=
  { sampleLeave with id := 5, startDate := 259200000, endDate := 345600000 }

/-- Edit payload that only moves the start date to the epoch; every
other field is absent.  Since `endDate` is not among the updated paths,
its (broken) cross-field update validator does not run, so this payload
passes update validation. -/
def moveStartPayload : EditPayload :=
  { leaveType := none, startDate := some 0, endDate := none,
    reason := none, emergencyContact := none, workArrangement := none,
    coveringEmployee := none }

/-- The record `updateLeave` persists for `moveStartPayload` on
`laterLeave`: the start date moved from day 3 to day 0, but `totalDays`
still holds the old value 2 (the `findByIdAndUpdate` path never reruns
the `pre('save')` hook). -/
def staleStartLeave : LeaveRequest :=
  { laterLeave with startDate := 0 }

/-- C2 failing input: a startDate-only edit of the pending request
`[day 3, day 4]` down to day 0 commits (no validator runs on the
`startDate` path, and `endDate` is not in the update), yet the persisted
record keeps `totalDays = 2` while the derived inclusive span of the new
dates is 5 — the edit path (`findByIdAndUpdate`) bypasses the
`pre('save')` recomputation, breaking the invariant the schema's own
hook is meant to maintain.  (An `endDate`-containing edit instead fails
update validation outright and persists nothing.) -/
theorem edit_startDate_keeps_stale_totalDays :
    laterLeave.totalDays
      = computeTotalDays laterLeave.startDate laterLeave.endDate ∧
    updateLeave [laterLeave] ownerActor 5 moveStartPayload
      = .ok ([staleStartLeave], staleStartLeave) ∧
    staleStartLeave.totalDays = 2 ∧
    computeTotalDays staleStartLeave.startDate
        staleStartLeave.endDate = 5 ∧
    staleStartLeave.totalDays ≠
      computeTotalDays staleStartLeave.startDate
        staleStartLeave.endDate := by
  refine ⟨by decide, by decide, by decide, by decide, by decide⟩

/-- C5 counterexample: the owner edits the pending sample request's end
date so that the new interval `[day 0, day 4]` conflicts only with the
record's own stored interval — yet the edit does NOT succeed: the
payload contains `endDate`, whose cross-field update validator fails in
`findByIdAndUpdate`'s update context, so the call returns the generic
500 (record unchanged).  It is, as the claim's reasoning expects, not an
overlap rejection — but it is not a success either. -/
theorem edit_endDate_fails_validation_cex :
    sampleLeave.status = .pending ∧
    updateLeave [sampleLeave] ownerActor 1 extendEndPayload
      = .error .serverError ∧
    updateLeave [sampleLeave] ownerActor 1 extendEndPayload
      ≠ .error .overlapConflict := by
  refine ⟨by decide, by decide, by decide⟩

/-- C5 (amended): the overlap re-check during an edit runs on the merged
record, which keeps the record's own id, and the query excludes that id
— so an edit of a pending request whose new (well-formed) dates conflict
only with the record being edited is never rejected with the overlap
error; and it succeeds whenever the payload also passes
`findByIdAndUpdate`'s update validation (which a startDate-only date
change does, and any `endDate`-containing payload does not). -/
theorem edit_no_self_block_amended (store : Store) (a : Actor) (id : Nat)
    (p : EditPayload) (leave : LeaveRequest)
    (hfound : findById store id = some leave)
    (hpending : leave.status = .pending)
    (hauth : ¬(a.role ≠ "admin" ∧ leave.employee ≠ a.id))
    (hwf : (applyEdit leave p).startDate ≤ (applyEdit leave p).endDate)
    (hswf : ∀ l ∈ store, l.startDate ≤ l.endDate)
    (hself : ∀ l ∈ store,
      l.employee = (applyEdit leave p).employee →
      (l.status = .pending ∨ l.status = .approved) →
      (applyEdit leave p).startDate ≤ l.endDate →
      l.startDate ≤ (applyEdit leave p).endDate →
      l.id = leave.id) :
    updateLeave store a id p ≠ .error .overlapConflict ∧
    (updateValidationPasses p = true →
      updateLeave store a id p
        = .ok (store.map (fun l => if l.id == id then applyEdit l p else l),
               applyEdit leave p)) := by
  have hno : checkOverlap store (applyEdit leave p) = false := by
    rw [Bool.eq_false_iff]
    intro htrue
    obtain ⟨l, hl, he, hid, hst, h1, h2⟩ :=
      (checkOverlap_eq_true_iff store _ hwf hswf).mp htrue
    exact hid (hself l hl he hst h1 h2)
  unfold updateLeave
  rw [hfound]
  dsimp only
  rw [if_neg (by simp [hpending]), if_neg hauth,
    if_neg (by simp [hno])]
  constructor
  · intro hcontra
    by_cases h4 : updateValidationPasses p = true
    · rw [if_neg (by simp [h4])] at hcontra
      simp at hcontra
    · rw [if_pos (by simp [h4])] at hcontra
      simp at hcontra
  · intro hval
    rw [if_neg (by simp [hval])]

/-- Witness for C5's amended theorem: moving the start date of the
pending `[day 3, day 4]` request to day 0 — colliding only with its own
stored interval — passes update validation and is accepted. -/
theorem edit_no_self_block_amended_witness :
    updateValidationPasses moveStartPayload = true ∧
    updateLeave [laterLeave] ownerActor 5 moveStartPayload
      = .ok ([laterLeave].map (fun l =>
               if l.id == 5 then applyEdit l moveStartPayload else l),
             applyEdit laterLeave moveStartPayload) :=
  ⟨by decide,
   (edit_no_self_block_amended [laterLeave] ownerActor 5 moveStartPayload
      laterLeave (by decide) (by decide) (by decide) (by decide) (by decide)
      (by decide)).2 (by decide)⟩

/-- C8: for a found record, `deleteLeave` fails with the state-conflict
error whenever the status is not `pending` (and, the call failing, the
store is left untouched); for a `pending` record it fails `forbidden` for
an actor who is neither admin nor the owning requester, and succeeds —
removing exactly that record — for the owner or an admin. -/
theorem deleteLeave_guards (store : Store) (a : Actor) (id : Nat)
    (leave : LeaveRequest)
    (hfound : findById store id = some leave) :
    (leave.status ≠ .pending →
      deleteLeave store a id = .error .stateConflict) ∧
    (leave.status = .pending → a.role ≠ "admin" → leave.employee ≠ a.id →
      deleteLeave store a id = .error .forbidden) ∧
    (leave.status = .pending → (a.role = "admin" ∨ leave.employee = a.id) →
      deleteLeave store a id = .ok (store.filter fun l => l.id != id)) := by
  unfold deleteLeave
  rw [hfound]
  dsimp only
  refine ⟨?_, ?_, ?_⟩
  · intro h
    rw [if_pos h]
  · intro hp hr he
    rw [if_neg (by simp [hp]), if_pos ⟨hr, he⟩]
  · intro hp hor
    rw [if_neg (by simp [hp]),
      if_neg (by rintro ⟨h1, h2⟩; rcases hor with h | h
                 exacts [h1 h, h2 h])]

/-- Witness for C8: all three guard outcomes at concrete stores — the
approved record refuses deletion even by its owner, a stranger is
forbidden from deleting the pending record, and the owner deletes it. -/
theorem deleteLeave_guards_witness :
    deleteLeave [approvedLeave] ownerActor 1 = .error .stateConflict ∧
    deleteLeave [sampleLeave] otherActor 1 = .error .forbidden ∧
    deleteLeave [sampleLeave] ownerActor 1
      = .ok ([sampleLeave].filter fun l => l.id != 1) :=
  ⟨(deleteLeave_guards [approvedLeave] ownerActor 1 approvedLeave
      (by decide)).1 (by decide),
   (deleteLeave_guards [sampleLeave] otherActor 1 sampleLeave
      (by decide)).2.1 (by decide) (by decide) (by decide),
   (deleteLeave_guards [sampleLeave] ownerActor 1 sampleLeave
      (by decide)).2.2 (by decide) (by decide)⟩

/-- C10: a successful edit only ever changes the seven whitelisted
fields.  The persisted record keeps the found record's id, employee,
status, appliedDate, totalDays, decision dates and actors,
rejectionReason, documents, and notes; and each whitelisted field omitted
from the payload keeps its prior value. -/
theorem updateLeave_frame (store : Store) (a : Actor) (id : Nat)
    (p : EditPayload) (store' : Store) (updated leave : LeaveRequest)
    (hfound : findById store id = some leave)
    (hok : updateLeave store a id p = .ok (store', updated)) :
    updated.id = leave.id ∧ updated.employee = leave.employee ∧
    updated.status = leave.status ∧
    updated.appliedDate = leave.appliedDate ∧
    updated.totalDays = leave.totalDays ∧
    updated.approvedDate = leave.approvedDate ∧
    updated.rejectedDate = leave.rejectedDate ∧
    updated.approvedBy = leave.approvedBy ∧
    updated.rejectedBy = leave.rejectedBy ∧
    updated.rejectionReason = leave.rejectionReason ∧
    updated.documents = leave.documents ∧
    updated.notes = leave.notes ∧
    (p.leaveType = none → updated.leaveType = leave.leaveType) ∧
    (p.startDate = none → updated.startDate = leave.startDate) ∧
    (p.endDate = none → updated.endDate = leave.endDate) ∧
    (p.reason = none → updated.reason = leave.reason) ∧
    (p.emergencyContact = none →
      updated.emergencyContact = leave.emergencyContact) ∧
    (p.workArrangement = none →
      updated.workArrangement = leave.workArrangement) ∧
    (p.coveringEmployee = none →
      updated.coveringEmployee = leave.coveringEmployee) := by
  have hup : updated = applyEdit leave p := by
    unfold updateLeave at hok
    rw [hfound] at hok
    dsimp only at hok
    by_cases h1 : leave.status ≠ LeaveStatus.pending
    · rw [if_pos h1] at hok
      cases hok
    · rw [if_neg h1] at hok
      by_cases h2 : a.role ≠ "admin" ∧ leave.employee ≠ a.id
      · rw [if_pos h2] at hok
        cases hok
      · rw [if_neg h2] at hok
        by_cases h3 : ((p.startDate.isSome || p.endDate.isSome)
            && checkOverlap store (applyEdit leave p)) = true
        · rw [if_pos h3] at hok
          cases hok
        · rw [if_neg h3] at hok
          by_cases h4 : updateValidationPasses p = true
          · rw [if_neg (by simp [h4])] at hok
            exact (congrArg Prod.snd (Except.ok.inj hok)).symm
          · rw [if_pos (by simp [h4])] at hok
            cases hok
  subst hup
  refine ⟨rfl, rfl, rfl, rfl, rfl, rfl, rfl, rfl, rfl, rfl, rfl, rfl,
    ?_, ?_, ?_, ?_, ?_, ?_, ?_⟩ <;>
    · intro h
      simp [applyEdit, h]

/-- Witness for C10: the frame conditions instantiated at the concrete
committing start-date edit of the pending `[day 3, day 4]` request. -/
theorem updateLeave_frame_witness :
    staleStartLeave.status = laterLeave.status ∧
    staleStartLeave.totalDays = laterLeave.totalDays :=
  ⟨(updateLeave_frame [laterLeave] ownerActor 5 moveStartPayload
      [staleStartLeave] staleStartLeave laterLeave (by decide)
      (by decide)).2.2.1,
   (updateLeave_frame [laterLeave] ownerActor 5 moveStartPayload
      [staleStartLeave] staleStartLeave laterLeave (by decide)
      (by decide)).2.2.2.2.1⟩

end Ems
